import Mathlib

/-!
Verification of the Easygrader grade-aggregation pipeline.

The Python sources (`utils.py`, `easygrader.py`) are shallowly embedded below.
Pandas DataFrames are modelled by the `DF` structure: an explicit row index
(student IDs in order), an explicit column-name list, and a total cell
function returning `Option` values, where `none` stands for a missing value
(`np.nan`).  Python exceptions are modelled with `Except`/`Option` results.
-/

namespace Easygrader

/-- Model of a pandas DataFrame: row index (in order), column names (in
order), and a cell lookup; `none` models `np.nan` / a missing cell. -/
structure DF (α : Type) where
  index : List String
  cols : List String
  cell : String → String → Option α

/-- From `utils.py`, `test_score(test_name, results, student_id)`: keep the
non-NaN entries of `results`; if none remain return NaN; if more than one
remains, print a diagnostic naming the test and the student; return the first
non-NaN entry.  The printed diagnostic is modelled as the second component:
`some (test_name, student_id)` exactly when the print happens. -/
def test_score (test_name : String) (results : List (Option ℚ))
    (student_id : String) : Option ℚ × Option (String × String) :=
  let not_na := results.filterMap (fun r => r)
  if not_na = [] then (none, none)
  else (not_na.head?, if 1 < not_na.length then some (test_name, student_id) else none)

/-- From `utils.py`, the loop body of `letter_conversion`: iterate over the
thresholds with their index `i`; on the first threshold with `x >= threshold`
return `letters[i]` (Python raises IndexError when `i` is out of range,
modelled by `none`); when the loop ends return `letters[-1]`
(IndexError on an empty list, modelled by `none`). -/
def letterLoop (x : ℚ) (letters : List String) : Nat → List ℚ → Option String
  | _, [] => letters.getLast?
  | i, t :: ts => if x ≥ t then letters[i]? else letterLoop x letters (i + 1) ts

/-- From `utils.py`, `letter_conversion(x, thresholds, letters)`. -/
def letter_conversion (x : ℚ) (thresholds : List ℚ) (letters : List String) :
    Option String :=
  letterLoop x letters 0 thresholds

/-- Python list indexing `l[i]` for a possibly negative `i`: negative indices
count from the end; an index out of range raises IndexError (`none`). -/
def pyGet (l : List ℚ) (i : ℤ) : Option ℚ :=
  if 0 ≤ i then l[i.toNat]?
  else if (-i).toNat ≤ l.length then l[l.length - (-i).toNat]?
  else none

/-- From `utils.py`, `inverse_conversion(x, thresholds, letters)`.  The Python
function first mutates its `thresholds` argument via
`thresholds.extend([0, 100])`, then computes `letters.index(x)` (ValueError
when absent, modelled by a `none` result) and returns
`(thresholds[index] + thresholds[index-1]) // 2` (note the Python negative
index when `index = 0`).  The mutation is made explicit: the second component
of the result is the list the caller's `thresholds` object holds after the
call. -/
def inverse_conversion (x : String) (thresholds : List ℚ)
    (letters : List String) : Option ℚ × List ℚ :=
  let ts := thresholds ++ [0, 100]
  (match letters.findIdx? (fun l => l == x) with
   | none => none
   | some i =>
     match pyGet ts (i : ℤ), pyGet ts ((i : ℤ) - 1) with
     | some a, some b => some ((Rat.floor ((a + b) / 2) : ℤ) : ℚ)
     | _, _ => none,
   ts)

/-- Default thresholds from `compute_grades` / `create_import`. -/
def defaultThresholds : List ℚ := [93, 90, 87, 83, 80, 75, 65, 50]

/-- Default letter grades from `compute_grades` / `create_import`. -/
def defaultLetters : List String := ["A", "A-", "B+", "B", "B-", "C+", "C", "D", "F"]

/-- Round trip of `compute_grades` then `create_import` on the default
thresholds and letters: convert a score to a letter, then the letter back to
a numeric score. -/
def roundTrip (x : ℚ) : Option ℚ :=
  match letter_conversion x defaultThresholds defaultLetters with
  | none => none
  | some l => (inverse_conversion l defaultThresholds defaultLetters).1

/-- Spec-side first-match index, from the words of the claim on
`letter_conversion`: the first index `i` such that `x ≥ T[i]`. -/
def firstMatchIdx (x : ℚ) : List ℚ → Option Nat
  | [] => none
  | t :: ts => if x ≥ t then some 0 else (firstMatchIdx x ts).map (· + 1)

/-- Spec-side letter mapping, from the words of the claim: the letter at the
first index `i` with `x ≥ T[i]`, and the last letter when no threshold
matches. -/
def toLetterSpec (x : ℚ) (T : List ℚ) (L : List String) : String :=
  match firstMatchIdx x T with
  | some i => (L[i]?).getD ""
  | none => (L.getLast?).getD ""

/-! ### `format_file` (the ID-resolution and validation slice)

`format_file` in `utils.py` reads a CSV, splits names, resolves student IDs
and validates them.  The CSV reading and name handling are collaborator
concerns; the part the claims are about (lines 59-81) is the ID resolution
from the `id` / `email` input columns followed by the absent-ID and
duplicate-ID checks.  A raw row is modelled by its optional name fields and
its optional `id` / `email` cells. -/

/-- One raw input row of the table handed to `format_file`: the name cells
and the `id` / `email` cells (where configured), `none` modelling NaN. -/
structure Row where
  first : Option String
  last : Option String
  id : Option String
  email : Option String
deriving DecidableEq, Repr

/-- The local part of an email address, `email.str.split('@')[0]`. -/
def emailLocal (s : String) : String := (s.splitOn "@").headD ""

/-- From `utils.py` lines 59-70: the resolved ID column.  With an `id` input
column the IDs start as its values; with an `email` input column, when an
`id` column exists and has at least one NaN, only the NaN entries are
backfilled from the email local part, otherwise the whole column is assigned
the email local parts.  A NaN email keeps the entry NaN. -/
def resolveIds (hasId hasEmail : Bool) (rows : List Row) : List (Option String) :=
  if hasEmail then
    if hasId ∧ rows.any (fun r => r.id.isNone) then
      rows.map (fun r => match r.id with
        | some v => some v
        | none => r.email.map emailLocal)
    else
      rows.map (fun r => r.email.map emailLocal)
  else rows.map (fun r => r.id)

/-- The fatal errors of `format_file` lines 71-81: no ID source configured;
some rows without a resolvable ID (the raised exception lists the first/last
names of the affected students); duplicated IDs (the raised exception lists
the duplicated values). -/
inductive FmtErr where
  | noIdSource
  | missingIds (students : List (Option String × Option String))
  | duplicates (dups : List String)
deriving DecidableEq, Repr

/-- The values `pandas.Series.duplicated` marks: entries equal to some
earlier entry (the `seen` accumulator holds the values already passed). -/
def dupMarks (seen : List String) : List String → List String
  | [] => []
  | x :: xs => if x ∈ seen then x :: dupMarks (x :: seen) xs
               else dupMarks (x :: seen) xs

/-- From `utils.py` lines 59-81: ID resolution followed by the two
validations.  On success returns the resolved ID values. -/
def format_file_ids (hasId hasEmail : Bool) (rows : List Row) :
    Except FmtErr (List String) :=
  if ¬ hasId ∧ ¬ hasEmail then .error .noIdSource
  else
    let ids := resolveIds hasId hasEmail rows
    if ids.any (fun i => i.isNone) then
      .error (.missingIds ((rows.zip ids).filterMap
        (fun p => if p.2.isNone then some (p.1.first, p.1.last) else none)))
    else
      let idVals := ids.filterMap (fun i => i)
      let dups := dupMarks [] idVals
      if dups ≠ [] then .error (.duplicates dups) else .ok idVals

/-! ### `GradingScheme` -/

/-- From `easygrader.py`, `GradingScheme.__init__` dispatches on the `scheme`
argument; the closed variants correspond to its branches, `custom` to the
fall-through that stores a handmade function. -/
inductive GradingScheme where
  | mean
  | drop (arg : Nat)
  | weightsList (arg : List ℚ)
  | weightsDict (arg : List (String × ℚ))
  | custom (f : List (String × ℚ) → Except String ℚ)

/-- `heapq.nlargest(n, l)`: the `n` largest values of `l` in descending
order (the whole list, sorted descending, when `n ≥ len(l)`; empty when
`n ≤ 0`). -/
def nlargest (n : ℤ) (l : List ℚ) : List ℚ :=
  if n ≤ 0 then [] else (l.insertionSort (fun a b => b ≤ a)).take n.toNat

/-- From `GradingScheme.__init__`, the `drop` branch closure `func(grades)`:
`nb_grades = len(grades) - arg; sum(nlargest(nb_grades, grades)) / nb_grades`.
Python raises ZeroDivisionError exactly when `nb_grades == 0`; when
`nb_grades < 0`, `nlargest` returns the empty list and the result is
`0 / nb_grades = -0.0`. -/
def dropFunc (arg : Nat) (grades : List ℚ) : Except String ℚ :=
  let nb : ℤ := (grades.length : ℤ) - (arg : ℤ)
  if nb = 0 then .error "ZeroDivisionError"
  else .ok ((nlargest nb grades).sum / (nb : ℚ))

/-- Application of a `GradingScheme` to a name-keyed sequence of values (a
pandas Series in the source).  `mean` is the arithmetic mean; `drop`
delegates to `dropFunc`; the weighted variants divide the weighted sum by the
total weight, the mapping variant raising KeyError when a weight key is
missing from the values. -/
def GradingScheme.apply : GradingScheme → List (String × ℚ) → Except String ℚ
  | .mean, nv => .ok ((nv.map Prod.snd).sum / (nv.length : ℚ))
  | .drop k, nv => dropFunc k (nv.map Prod.snd)
  | .weightsList w, nv =>
      .ok ((List.zipWith (fun v wt => v * wt) (nv.map Prod.snd) w).sum / w.sum)
  | .weightsDict w, nv => do
      let terms ← w.mapM (fun kw => match nv.lookup kw.1 with
        | some v => Except.ok (v * kw.2)
        | none => Except.error "KeyError")
      .ok (terms.sum / (w.map Prod.snd).sum)
  | .custom f, nv => f nv

/-! ### `Course` construction (roster, merge, diagnostics) -/

/-- `gradebooks[0].df[info_col.values()]`: the roster is the reference
gradebook restricted to the info columns. -/
def rosterOf {α : Type} (infoCols : List String) (g0 : DF α) : DF α :=
  { index := g0.index, cols := infoCols, cell := g0.cell }

/-- `gradebook.df.loc[:, ~gradebook.df.columns.isin(self.roster.columns)]`:
drop the columns whose names collide with the roster info columns. -/
def trimCols {α : Type} (rosterCols : List String) (gb : DF α) : DF α :=
  { index := gb.index, cols := gb.cols.filter (fun c => c ∉ rosterCols),
    cell := gb.cell }

/-- `.reindex(idx)` on the rows: the resulting frame has row index `idx`,
and a row absent from the original frame is all-NaN. -/
def reindexRows {α : Type} (idx : List String) (gb : DF α) : DF α :=
  { index := idx, cols := gb.cols,
    cell := fun i c => if i ∈ gb.index then gb.cell i c else none }

/-- The loop `for i, gradebook in enumerate(gradebooks[1:])` printing, for
each later gradebook with a non-empty set difference
`roster.index - gradebook.index`, the missing students together with the
gradebook number `i+1`.  Called with starting number 1. -/
def missingDiags {α : Type} (rosterIdx : List String) :
    Nat → List (DF α) → List (Nat × List String)
  | _, [] => []
  | i, gb :: gbs =>
    let diff := rosterIdx.filter (fun s => s ∉ gb.index)
    (if diff = [] then [] else [(i, diff)]) ++ missingDiags rosterIdx (i + 1) gbs

/-- The state `Course.__init__` builds at lines 237-249: the roster, the
diagnostics, and the merged gradebook.  `pd.concat(parts, axis=1)` followed
by `.reindex(roster.index)` equals the column-wise juxtaposition of the parts
each reindexed to the roster rows, so the merged gradebook is kept as the
list of its reindexed parts (`[roster] ++ trimmed gradebooks`), whose column
lists concatenate to the merged column list. -/
structure CourseInit (α : Type) where
  roster : DF α
  diags : List (Nat × List String)
  mergedParts : List (DF α)
  mergedIndex : List String

/-- From `Course.__init__` lines 237-249 (`gradebooks[0]` raises on an empty
list, modelled by `none`). -/
def courseInit {α : Type} (infoCols : List String) :
    List (DF α) → Option (CourseInit α)
  | [] => none
  | g0 :: rest =>
    let roster := rosterOf infoCols g0
    some { roster := roster
           diags := missingDiags roster.index 1 rest
           mergedParts :=
             roster :: (g0 :: rest).map
               (fun gb => reindexRows roster.index (trimCols roster.cols gb))
           mergedIndex := roster.index }

/-! ### `compute_grades` -/

/-- A constructed `Test`: its name, maximum points and version column
names. -/
structure TestDef where
  name : String
  max_points : ℚ
  versions : List String

/-- A constructed `Assignment`: name, tests, per-test maximum points, the
grading schemes (max taken) and the display scaling. -/
structure AssignmentDef where
  name : String
  tests : List TestDef
  max_points : List ℚ
  grading_scheme : List GradingScheme
  scaling : ℚ

/-- The state a `Course` holds when `compute_grades` runs: the assignments
and the roster / merged gradebook / grades frames built at construction. -/
structure Course where
  assignments : List AssignmentDef
  info_col : List String
  roster : DF ℚ
  gradebook : DF ℚ
  grades : DF ℚ

/-- `self.tests`: all tests of all assignments, in order. -/
def Course.tests (c : Course) : List TestDef :=
  (c.assignments.map (fun a => a.tests)).flatten

/-- `max(gs.scheme(v) for gs in schemes)`: Python evaluates the generator
left to right, so the first exception propagates; `max` of an empty
generator raises ValueError. -/
def maxExcept : List (Except String ℚ) → Except String ℚ
  | [] => .error "ValueError: max of empty sequence"
  | [x] => x
  | x :: xs => do
    let a ← x
    let b ← maxExcept xs
    .ok (max a b)

/-- The result of `compute_grades`: the row index and column list of the
returned frame, and the per-section cell values.  The column list is, in the
concatenation order of the source (`[roster] + dfs.values()` with the dict
insertion order `tests, averages, final, letter, missed, others`). -/
structure CGOut where
  indexIds : List String
  columns : List String
  testsVal : String → String → Option ℚ
  averagesVal : String → String → Except String ℚ
  finalVal : String → Except String ℚ
  letterVal : String → Except String (Option String)
  missedVal : String → String → Nat
  othersVal : String → String → Option ℚ

/-- From `Course.compute_grades` (lines 261-370).  The five optional
parameters default as in the source.  `grades.replace(np.nan, 0,
inplace=True)` acts on `self.grades.copy()`, so the course state is returned
unchanged; the absent-to-zero substitution is the local `grades0`.  The
second component of the result is the course state after the call. -/
def compute_grades (c : Course) (grading_scheme : Option (List GradingScheme))
    (thresholds : Option (List ℚ)) (letters : Option (List String))
    (inc : Option (List String)) (include_others : Option (List String)) :
    CGOut × Course :=
  let gs := grading_scheme.getD [GradingScheme.mean]
  let T := thresholds.getD defaultThresholds
  let L := letters.getD defaultLetters
  let included := inc.getD ["averages", "missed", "final", "letter"]
  let include_options := ["tests", "averages", "final", "letter", "missed"]
  let grades0 : String → String → ℚ := fun i col => (c.grades.cell i col).getD 0
  let needAvg := "averages" ∈ included ∨ "final" ∈ included ∨ "letter" ∈ included
  let needFinal := "final" ∈ included ∨ "letter" ∈ included
  let avg : AssignmentDef → String → Except String ℚ := fun a i =>
    let vals := a.tests.map (fun t => grades0 i t.name)
    let normalized := List.zipWith (fun v m => v / m) vals a.max_points
    let named := List.zip (a.tests.map (fun t => t.name)) normalized
    (maxExcept (a.grading_scheme.map (fun g => g.apply named))).map
      (fun v => v * a.scaling)
  let unscaled : String → Except String (List (String × ℚ)) := fun i =>
    c.assignments.mapM (fun a => (avg a i).map (fun v => (a.name, v / a.scaling)))
  let finalG : String → Except String ℚ := fun i => do
    let u ← unscaled i
    let m ← maxExcept (gs.map (fun g => g.apply u))
    .ok (m * 100)
  let testsCols := if "tests" ∈ included then (c.tests).map (fun t => t.name) else []
  let averagesCols := if needAvg then c.assignments.map (fun a => a.name) else []
  let finalCols := if needFinal then ["Final grade"] else []
  let letterCols := if "letter" ∈ included then ["Letter grade"] else []
  let missedCols :=
    if "missed" ∈ included then c.assignments.map (fun a => a.name ++ " missed") else []
  let othersCols := match include_others with
    | none => []
    | some l => l.filter (fun x => x ∉ include_options)
  let out : CGOut := {
    indexIds := c.roster.index
    columns := c.roster.cols ++ testsCols ++ averagesCols ++ finalCols
      ++ letterCols ++ missedCols ++ othersCols
    testsVal := fun i t => c.grades.cell i t
    averagesVal := fun i aname =>
      match c.assignments.find? (fun a => a.name == aname) with
      | some a => avg a i
      | none => .error "KeyError"
    finalVal := finalG
    letterVal := fun i => (finalG i).map (fun f => letter_conversion f T L)
    missedVal := fun i aname =>
      match c.assignments.find? (fun a => a.name == aname) with
      | some a => (a.tests.filter (fun t => (c.grades.cell i t.name).isNone)).length
      | none => 0
    othersVal := fun i col => c.gradebook.cell i col }
  (out, c)

/-! ### `create_import` -/

/-- The pandas exceptions `create_import` can raise. -/
inductive PdErr where
  | keyError (name : String)
  | attributeError (name : String)
  | valueError (msg : String)
  | typeError
deriving DecidableEq, Repr

/-- Pandas attribute access `df.name`: falls back to the column named by the
literal attribute text and raises AttributeError when there is none. -/
def pyColAttr (df : DF String) (name : String) :
    Except PdErr (List (Option String)) :=
  if name ∈ df.cols then .ok (df.index.map (fun i => df.cell i name))
  else .error (.attributeError name)

/-- Row lookup `x[col]` inside `df.apply(..., axis=1)`: KeyError when the
column does not exist. -/
def pyRowGet (df : DF String) (col i : String) : Except PdErr (Option String) :=
  if col ∈ df.cols then .ok (df.cell i col) else .error (.keyError col)

/-- The table `create_import` builds before writing it to CSV. -/
structure ImportOut where
  columns : List String
  usernames : List String
  infoVals : List (Option String)
  pointsGrades : List (String × List (Option String))
  finalNums : Sum (List ℚ) (List (Option String))
  finalDenom : ℚ
  eolIndicator : String

/-- The `standardize` branch: `df.apply(lambda x: inverse_conversion(
x[letter_grade_col], thresholds, letters), axis=1)`.  The same `thresholds`
list object is passed to every row, so the state it holds is threaded
through the fold (each call extends it, cf. `inverse_conversion`).  A NaN
letter cell or a letter absent from `letters` raises ValueError. -/
def applyInverseRows (df : DF String) (lcol : String) (T0 : List ℚ)
    (L : List String) : Except PdErr (List ℚ) := do
  let r ← df.index.foldlM (fun (st : List ℚ × List ℚ) i => do
      let v ← pyRowGet df lcol i
      match v with
      | none => Except.error (PdErr.valueError "NaN")
      | some s =>
        match inverse_conversion s st.2 L with
        | (none, _) => Except.error (PdErr.valueError s)
        | (some q, ts) => Except.ok (st.1 ++ [q], ts)) ([], T0)
  Except.ok r.1

/-- From `easygrader.py`, `create_import` (lines 373-420), with the default
info columns and the `thresholds` / `letters` arguments already resolved.
Note the three attribute accesses in the source: `df.info_col_names`,
`df.col` and `df.letter_grade_col` look up columns named by those literal
texts (not the values of the like-named Python variables), raising
AttributeError when absent. -/
def create_import (df : DF String) (letter_grade_col : String)
    (standardize : Bool) (thresholds : List ℚ) (letters : List String)
    (include_others : List String) : Except PdErr ImportOut := do
  let infoColNames := ["Last Name", "First Name", "Email"]
  let columns := ["Username"] ++ infoColNames
      ++ include_others.map (fun c => c ++ " Points Grade")
      ++ ["Adjusted Final Grade Numerator", "Adjusted Final Grade Denominator",
          "End-Of-Line Indicator"]
  let usernames ← df.index.mapM (fun i => do
      let v ← pyRowGet df "ID" i
      match v with
      | some s => Except.ok ("#" ++ s)
      | none => Except.error PdErr.typeError)
  let infoVals ← pyColAttr df "info_col_names"
  let pointsGrades ← include_others.mapM (fun c => do
      let vals ← pyColAttr df "col"
      Except.ok (c ++ " Points Grade", vals))
  let finalNums ← (if standardize then
      (applyInverseRows df letter_grade_col thresholds letters).map Sum.inl
    else
      (pyColAttr df "letter_grade_col").map Sum.inr)
  Except.ok { columns := columns
              usernames := usernames
              infoVals := infoVals
              pointsGrades := pointsGrades
              finalNums := finalNums
              finalDenom := 100
              eolIndicator := "#" }

/-! ### Sample data for the concrete evaluations -/

/-- A one-test assignment HW out of 20 points, mean scheme. -/
def hwAssignment : AssignmentDef :=
  { name := "HW"
    tests := [{ name := "HW", max_points := 20, versions := ["HW"] }]
    max_points := [20]
    grading_scheme := [GradingScheme.mean]
    scaling := 20 }

/-- A one-student roster frame with the default info columns. -/
def sampleRoster : DF ℚ :=
  { index := ["s1"]
    cols := ["Last Name", "First Name", "ID", "Email"]
    cell := fun _ _ => none }

/-- A course with the single assignment HW. -/
def sampleCourse : Course :=
  { assignments := [hwAssignment]
    info_col := ["Last Name", "First Name", "ID", "Email"]
    roster := sampleRoster
    gradebook := sampleRoster
    grades := sampleRoster }

/-- The grade table handed to `create_import`: one student `jdoe` with letter
grade A, standard column names. -/
def sampleImportDF : DF String :=
  { index := ["jdoe"]
    cols := ["Last Name", "First Name", "ID", "Email", "Letter grade"]
    cell := fun i c =>
      if i = "jdoe" ∧ c = "ID" then some "jdoe"
      else if i = "jdoe" ∧ c = "Letter grade" then some "A"
      else some "x" }

end Easygrader

namespace Easygrader

/-- Evaluation of `letter_conversion` on the default thresholds and letters,
as a chain of comparisons. -/
theorem letter_conversion_default_eval (x : ℚ) :
    letter_conversion x defaultThresholds defaultLetters =
      some (if x ≥ 93 then "A" else if x ≥ 90 then "A-" else if x ≥ 87 then "B+"
        else if x ≥ 83 then "B" else if x ≥ 80 then "B-" else if x ≥ 75 then "C+"
        else if x ≥ 65 then "C" else if x ≥ 50 then "D" else "F") := by
  simp only [letter_conversion, defaultThresholds, defaultLetters, letterLoop]
  split_ifs <;> rfl

/-- The scan of `letter_conversion`, started at any index `i`, returns the
letter at `i + j` where `j` is the first matching threshold index, and the
last letter when none matches, provided the letters list is long enough. -/
theorem letterLoop_spec (x : ℚ) (L : List String) :
    ∀ (T : List ℚ) (i : Nat), i + T.length < L.length →
      letterLoop x L i T = some (match firstMatchIdx x T with
        | some j => (L[i + j]?).getD ""
        | none => (L.getLast?).getD "") := by
  intro T
  induction T with
  | nil =>
    intro i hi
    have hne : L ≠ [] := by
      intro h
      rw [h] at hi
      simp at hi
    obtain ⟨v, hv⟩ := Option.isSome_iff_exists.mp (List.getLast?_isSome.mpr hne)
    simp [letterLoop, firstMatchIdx, hv]
  | cons t ts ih =>
    intro i hi
    by_cases hxt : x ≥ t
    · have hi' : i < L.length := by
        simp only [List.length_cons] at hi
        omega
      have hv : L[i]? = some (L[i]) := List.getElem?_eq_getElem hi'
      simp [letterLoop, firstMatchIdx, hxt, hv]
    · have hi' : (i + 1) + ts.length < L.length := by
        simp only [List.length_cons] at hi
        omega
      have hrec := ih (i + 1) hi'
      simp only [letterLoop, if_neg hxt, hrec, firstMatchIdx]
      cases hf : firstMatchIdx x ts with
      | none => simp [hf]
      | some j =>
        have harith : i + 1 + j = i + (j + 1) := by omega
        simp [hf, harith]

/-- C5: for every score, threshold list and letter list with one more entry
than the thresholds, `letter_conversion` returns the letter at the first
index whose threshold the score reaches, and the last letter when no
threshold matches; with the defaults, 93 maps to A, 92.9 to A-, 50 to D and
49 to F. -/
theorem c5_letter_conversion_spec :
    (∀ (x : ℚ) (T : List ℚ) (L : List String), L.length = T.length + 1 →
      letter_conversion x T L = some (toLetterSpec x T L))
    ∧ letter_conversion 93 defaultThresholds defaultLetters = some "A"
    ∧ letter_conversion (929 / 10) defaultThresholds defaultLetters = some "A-"
    ∧ letter_conversion 50 defaultThresholds defaultLetters = some "D"
    ∧ letter_conversion 49 defaultThresholds defaultLetters = some "F" := by
  refine ⟨?_, ?_, ?_, ?_, ?_⟩
  · intro x T L hlen
    have h := letterLoop_spec x L T 0 (by omega)
    rw [letter_conversion, h, toLetterSpec]
    cases hf : firstMatchIdx x T <;> simp [hf]
  · rw [letter_conversion_default_eval]
    norm_num
  · rw [letter_conversion_default_eval]
    norm_num
  · rw [letter_conversion_default_eval]
    norm_num
  · rw [letter_conversion_default_eval]
    norm_num

/-- Witness for C5 at a concrete input: the general correspondence applied
to score 95 with the default thresholds and letters. -/
theorem c5_letter_conversion_witness :
    letter_conversion 95 defaultThresholds defaultLetters
      = some (toLetterSpec 95 defaultThresholds defaultLetters) :=
  c5_letter_conversion_spec.1 95 defaultThresholds defaultLetters rfl

/-- `dupMarks` is empty exactly when the values are pairwise distinct and
disjoint from the already-seen values. -/
theorem dupMarks_eq_nil (l : List String) :
    ∀ seen, dupMarks seen l = [] ↔ l.Nodup ∧ ∀ x ∈ l, x ∉ seen := by
  induction l with
  | nil => simp [dupMarks]
  | cons a xs ih =>
    intro seen
    by_cases ha : a ∈ seen
    · rw [dupMarks, if_pos ha]
      constructor
      · intro h
        exact absurd h (List.cons_ne_nil _ _)
      · rintro ⟨_, hall⟩
        exact absurd ha (hall a (List.mem_cons_self a xs))
    · rw [dupMarks, if_neg ha, ih (a :: seen)]
      simp only [List.nodup_cons, List.mem_cons, not_or]
      constructor
      · rintro ⟨hnd, hall⟩
        refine ⟨⟨fun hmem => (hall _ hmem).1 rfl, hnd⟩, ?_⟩
        rintro x (rfl | hx)
        · exact ha
        · exact (hall x hx).2
      · rintro ⟨⟨hax, hnd⟩, hall⟩
        exact ⟨hnd, fun x hx => ⟨fun hxa => hax (hxa ▸ hx), hall x (Or.inr hx)⟩⟩

/-- A value appears in `dupMarks seen l` exactly when it repeats: it was
already seen and occurs in `l`, or it occurs at least twice in `l`. -/
theorem mem_dupMarks (x : String) (l : List String) :
    ∀ seen, x ∈ dupMarks seen l ↔ (x ∈ seen ∧ x ∈ l) ∨ 2 ≤ l.count x := by
  induction l with
  | nil => simp [dupMarks]
  | cons a xs ih =>
    intro seen
    by_cases hxa : x = a
    · subst hxa
      by_cases ha : x ∈ seen
      · rw [dupMarks, if_pos ha]
        constructor
        · intro _
          exact Or.inl ⟨ha, List.mem_cons_self x xs⟩
        · intro _
          exact List.mem_cons_self x _
      · rw [dupMarks, if_neg ha, ih (x :: seen), List.count_cons_self]
        constructor
        · rintro (⟨_, hmem⟩ | hc)
          · have := List.count_pos_iff.mpr hmem
            right
            omega
          · right
            omega
        · rintro (⟨hseen, _⟩ | hc)
          · exact absurd hseen ha
          · have hmem : x ∈ xs := List.count_pos_iff.mp (by omega)
            exact Or.inl ⟨List.mem_cons_self x seen, hmem⟩
    · have hcount : (a :: xs).count x = xs.count x :=
        List.count_cons_of_ne hxa xs
      by_cases ha : a ∈ seen
      · rw [dupMarks, if_pos ha, List.mem_cons, ih (a :: seen), hcount]
        simp only [List.mem_cons]
        constructor
        · rintro (rfl | ⟨(rfl | hseen), hmem⟩ | hc)
          · exact absurd rfl hxa
          · exact absurd rfl hxa
          · exact Or.inl ⟨hseen, Or.inr hmem⟩
          · exact Or.inr hc
        · rintro (⟨hseen, (rfl | hmem)⟩ | hc)
          · exact absurd rfl hxa
          · exact Or.inr (Or.inl ⟨Or.inr hseen, hmem⟩)
          · exact Or.inr (Or.inr hc)
      · rw [dupMarks, if_neg ha, ih (a :: seen), hcount]
        simp only [List.mem_cons]
        constructor
        · rintro (⟨(rfl | hseen), hmem⟩ | hc)
          · exact absurd rfl hxa
          · exact Or.inl ⟨hseen, Or.inr hmem⟩
          · exact Or.inr hc
        · rintro (⟨hseen, (rfl | hmem)⟩ | hc)
          · exact absurd rfl hxa
          · exact Or.inl ⟨Or.inr hseen, hmem⟩
          · exact Or.inr hc

/-- C7: given an ID source, normalization fails whenever a resolved student
ID is absent, with an error listing the (first, last) names of exactly the
affected rows; when all IDs resolve but some value repeats, it fails with an
error listing the duplicated values (those occurring at least twice);
concretely, two rows both resolving to ID `jdoe` raise an error listing
`jdoe`. -/
theorem c7_format_validation :
    (∀ (hasId hasEmail : Bool) (rows : List Row), (hasId ∨ hasEmail) →
      (((resolveIds hasId hasEmail rows).any (fun i => i.isNone)) →
        format_file_ids hasId hasEmail rows
          = Except.error (FmtErr.missingIds
              ((rows.zip (resolveIds hasId hasEmail rows)).filterMap
                (fun p => if p.2.isNone then some (p.1.first, p.1.last)
                  else none))))
      ∧ (¬ ((resolveIds hasId hasEmail rows).any (fun i => i.isNone)) →
          ¬ ((resolveIds hasId hasEmail rows).filterMap (fun i => i)).Nodup →
          ∃ d, format_file_ids hasId hasEmail rows
              = Except.error (FmtErr.duplicates d)
            ∧ d ≠ []
            ∧ ∀ s, s ∈ d ↔
                2 ≤ ((resolveIds hasId hasEmail rows).filterMap
                      (fun i => i)).count s))
    ∧ format_file_ids true false
        [{ first := some "John", last := some "Doe", id := some "jdoe",
           email := none },
         { first := some "Jane", last := some "Doe", id := some "jdoe",
           email := none }]
      = Except.error (FmtErr.duplicates ["jdoe"]) := by
  refine ⟨?_, rfl⟩
  intro hasId hasEmail rows hcfg
  have hnotcfg : ¬ (¬ (hasId = true) ∧ ¬ (hasEmail = true)) := by
    rcases hcfg with h | h <;> simp [h]
  constructor
  · intro hany
    unfold format_file_ids
    rw [if_neg hnotcfg, if_pos hany]
  · intro hnone hdup
    unfold format_file_ids
    rw [if_neg hnotcfg, if_neg hnone]
    have hne : dupMarks []
        ((resolveIds hasId hasEmail rows).filterMap (fun i => i)) ≠ [] := by
      intro h
      exact hdup ((dupMarks_eq_nil _ []).mp h).1
    rw [if_pos hne]
    refine ⟨_, rfl, hne, ?_⟩
    intro s
    rw [mem_dupMarks]
    simp

/-- Witness for C7 at concrete inputs: a row whose ID cannot be resolved
(lists the student), and two rows resolving to the same ID. -/
theorem c7_format_validation_witness :
    format_file_ids true false
        [{ first := some "Ann", last := some "Lee", id := none,
           email := none }]
      = Except.error (FmtErr.missingIds [(some "Ann", some "Lee")])
    ∧ ∃ d, format_file_ids true false
        [{ first := some "John", last := some "Doe", id := some "jdoe",
           email := none },
         { first := some "Jane", last := some "Doe", id := some "jdoe",
           email := none }]
          = Except.error (FmtErr.duplicates d)
        ∧ d ≠ []
        ∧ ∀ s, s ∈ d ↔ 2 ≤ ((resolveIds true false
            [{ first := some "John", last := some "Doe", id := some "jdoe",
               email := none },
             { first := some "Jane", last := some "Doe", id := some "jdoe",
               email := none }]).filterMap (fun i => i)).count s :=
  ⟨(c7_format_validation.1 true false
      [{ first := some "Ann", last := some "Lee", id := none, email := none }]
      (Or.inl rfl)).1 (by decide),
   (c7_format_validation.1 true false
      [{ first := some "John", last := some "Doe", id := some "jdoe",
         email := none },
       { first := some "Jane", last := some "Doe", id := some "jdoe",
         email := none }]
      (Or.inl rfl)).2 (by decide) (by decide)⟩

/-- Completeness of the missing-student diagnostics: a later gradebook with
a non-empty missing set produces its numbered diagnostic. -/
theorem missingDiags_mem {α : Type} (rosterIdx : List String) :
    ∀ (gbs : List (DF α)) (start j : Nat) (gb : DF α),
      gbs[j]? = some gb →
      rosterIdx.filter (fun s => s ∉ gb.index) ≠ [] →
      (start + j, rosterIdx.filter (fun s => s ∉ gb.index))
        ∈ missingDiags rosterIdx start gbs := by
  intro gbs
  induction gbs with
  | nil =>
    intro start j gb h
    simp at h
  | cons g gs ih =>
    intro start j gb hget hne
    cases j with
    | zero =>
      simp only [List.getElem?_cons_zero, Option.some.injEq] at hget
      subst hget
      rw [missingDiags, if_neg hne]
      exact List.mem_append_left _ (List.mem_singleton.mpr (by simp))
    | succ j' =>
      have h := ih (start + 1) j' gb (by simpa using hget) hne
      have harith : start + (j' + 1) = (start + 1) + j' := by omega
      rw [missingDiags, harith]
      exact List.mem_append_right _ h

/-- Soundness of the missing-student diagnostics: every emitted diagnostic
comes from a later gradebook at the numbered position and lists exactly the
roster students absent from it. -/
theorem missingDiags_sound {α : Type} (rosterIdx : List String) :
    ∀ (gbs : List (DF α)) (start k : Nat) (d : List String),
      (k, d) ∈ missingDiags rosterIdx start gbs →
      ∃ j gb, gbs[j]? = some gb ∧ k = start + j
        ∧ d = rosterIdx.filter (fun s => s ∉ gb.index) ∧ d ≠ [] := by
  intro gbs
  induction gbs with
  | nil =>
    intro start k d h
    simp [missingDiags] at h
  | cons g gs ih =>
    intro start k d h
    rw [missingDiags] at h
    rcases List.mem_append.mp h with h1 | h2
    · by_cases hd : rosterIdx.filter (fun s => s ∉ g.index) = []
      · rw [if_pos hd] at h1
        simp at h1
      · rw [if_neg hd] at h1
        simp only [List.mem_singleton, Prod.mk.injEq] at h1
        obtain ⟨hk, hdd⟩ := h1
        exact ⟨0, g, by simp, by omega, hdd, by rw [hdd]; exact hd⟩
    · obtain ⟨j, gb, hj, hk, hdd, hne⟩ := ih (start + 1) k d h2
      exact ⟨j + 1, gb, by simpa using hj, by omega, hdd, hne⟩

/-- C4: `Course` construction fixes the student set to the reference (first)
gradebook's IDs in row order: the roster and merged index equal the first
gradebook's index, students absent from that index do not appear, students
of the roster missing from a later gradebook have all-absent cells in that
gradebook's part of the merged frame with a diagnostic naming them and the
gradebook number, and every diagnostic lists exactly the roster students
missing from its gradebook. -/
theorem c4_course_merge {α : Type} (infoCols : List String) (g0 : DF α)
    (rest : List (DF α)) (c : CourseInit α)
    (h : courseInit infoCols (g0 :: rest) = some c) :
    c.roster.index = g0.index
    ∧ c.mergedIndex = g0.index
    ∧ (∀ s, s ∉ g0.index → s ∉ c.mergedIndex)
    ∧ (∀ (j : Nat) (gb : DF α), rest[j]? = some gb →
        (∀ s, s ∈ g0.index → s ∉ gb.index →
          (∀ p, c.mergedParts[j + 2]? = some p → ∀ col, p.cell s col = none)
          ∧ ∃ d, (j + 1, d) ∈ c.diags ∧ s ∈ d)
        ∧ (∀ d, (j + 1, d) ∈ c.diags →
            d = g0.index.filter (fun s => s ∉ gb.index) ∧ d ≠ [])) := by
  cases h
  refine ⟨rfl, rfl, fun s hs => hs, ?_⟩
  intro j gb hj
  constructor
  · intro s hs hnotin
    constructor
    · intro p hp col
      simp only [List.getElem?_cons_succ, List.getElem?_map, hj,
        Option.map_some'] at hp
      obtain rfl := Option.some.inj hp
      simp [reindexRows, trimCols, rosterOf, hnotin]
    · refine ⟨g0.index.filter (fun s => s ∉ gb.index), ?_, ?_⟩
      · have hmem : s ∈ g0.index.filter (fun s => s ∉ gb.index) :=
          List.mem_filter.mpr ⟨hs, by simp [hnotin]⟩
        have hne : g0.index.filter (fun s => s ∉ gb.index) ≠ [] :=
          List.ne_nil_of_mem hmem
        have := missingDiags_mem g0.index rest 1 j gb hj hne
        have harith : 1 + j = j + 1 := by omega
        rw [harith] at this
        exact this
      · exact List.mem_filter.mpr ⟨hs, by simp [hnotin]⟩
  · intro d hd
    obtain ⟨j', gb', hj', hk, hdd, hne⟩ := missingDiags_sound g0.index rest 1
      (j + 1) d hd
    have hjj : j' = j := by omega
    subst hjj
    have hgb : gb' = gb := Option.some.inj (hj'.symm.trans hj)
    subst hgb
    exact ⟨hdd, hne⟩

/-- The reference gradebook of the C4 witness: students 1, 2, 3. -/
def c4g0 : DF ℚ :=
  { index := ["1", "2", "3"], cols := ["ID"], cell := fun _ _ => none }

/-- The later gradebook of the C4 witness: students 1, 2 only. -/
def c4gb1 : DF ℚ :=
  { index := ["1", "2"], cols := ["HW 1"],
    cell := fun i _ => if i = "1" then some 10 else some 20 }

/-- Witness for C4: merging a reference gradebook with students 1, 2, 3 and
a second gradebook with students 1, 2 keeps the roster 1, 2, 3, leaves
student 3 absent in the second gradebook's columns, and emits a diagnostic
for gradebook 1 naming student 3. -/
theorem c4_course_merge_witness :
    ∃ c : CourseInit ℚ, courseInit ["ID"] [c4g0, c4gb1] = some c
      ∧ c.mergedIndex = ["1", "2", "3"]
      ∧ (∃ d, (1, d) ∈ c.diags ∧ "3" ∈ d)
      ∧ ∀ p, c.mergedParts[2]? = some p → ∀ col, p.cell "3" col = none := by
  obtain ⟨c, hc⟩ : ∃ c, courseInit (α := ℚ) ["ID"] [c4g0, c4gb1] = some c :=
    ⟨_, rfl⟩
  have h := c4_course_merge ["ID"] c4g0 [c4gb1] c hc
  have h3in : "3" ∈ c4g0.index := by decide
  have h3out : "3" ∉ c4gb1.index := by decide
  obtain ⟨habs, hd⟩ := (h.2.2.2 0 c4gb1 rfl).1 "3" h3in h3out
  exact ⟨c, hc, h.2.1, hd, habs⟩

/-- C6: with the default thresholds and letters, converting a score in
[0, 100] to a letter and the letter back to a numeric score yields a value
in the same letter bracket (the two scores convert to the same letter); for
x = 95 the round trip yields (100 + 93) // 2 = 96. -/
theorem c6_round_trip_bracket :
    (∀ x : ℚ, 0 ≤ x → x ≤ 100 →
      ∃ y : ℚ, roundTrip x = some y
        ∧ letter_conversion y defaultThresholds defaultLetters
            = letter_conversion x defaultThresholds defaultLetters)
    ∧ roundTrip 95 = some 96 := by
  have hfloor : ∀ q : ℚ, Rat.floor q = ⌊q⌋ := fun _ => rfl
  have hinv : ∀ (s : String) (i : Nat) (a b : ℚ),
      defaultLetters.findIdx? (fun l => l == s) = some i →
      pyGet (defaultThresholds ++ [0, 100]) ((i : ℕ) : ℤ) = some a →
      pyGet (defaultThresholds ++ [0, 100]) (((i : ℕ) : ℤ) - 1) = some b →
      (inverse_conversion s defaultThresholds defaultLetters).1
        = some ((Rat.floor ((a + b) / 2) : ℤ) : ℚ) := by
    intro s i a b h1 h2 h3
    simp only [inverse_conversion, h1, h2, h3]
  have hA : (inverse_conversion "A" defaultThresholds defaultLetters).1
      = some 96 := by
    rw [hinv "A" 0 93 100 (by decide) (by decide) (by decide), hfloor]
    norm_num
  have hAm : (inverse_conversion "A-" defaultThresholds defaultLetters).1
      = some 91 := by
    rw [hinv "A-" 1 90 93 (by decide) (by decide) (by decide), hfloor]
    norm_num
  have hBp : (inverse_conversion "B+" defaultThresholds defaultLetters).1
      = some 88 := by
    rw [hinv "B+" 2 87 90 (by decide) (by decide) (by decide), hfloor]
    norm_num
  have hB : (inverse_conversion "B" defaultThresholds defaultLetters).1
      = some 85 := by
    rw [hinv "B" 3 83 87 (by decide) (by decide) (by decide), hfloor]
    norm_num
  have hBm : (inverse_conversion "B-" defaultThresholds defaultLetters).1
      = some 81 := by
    rw [hinv "B-" 4 80 83 (by decide) (by decide) (by decide), hfloor]
    norm_num
  have hCp : (inverse_conversion "C+" defaultThresholds defaultLetters).1
      = some 77 := by
    rw [hinv "C+" 5 75 80 (by decide) (by decide) (by decide), hfloor]
    norm_num
  have hC : (inverse_conversion "C" defaultThresholds defaultLetters).1
      = some 70 := by
    rw [hinv "C" 6 65 75 (by decide) (by decide) (by decide), hfloor]
    norm_num
  have hD : (inverse_conversion "D" defaultThresholds defaultLetters).1
      = some 57 := by
    rw [hinv "D" 7 50 65 (by decide) (by decide) (by decide), hfloor]
    norm_num
  have hF : (inverse_conversion "F" defaultThresholds defaultLetters).1
      = some 25 := by
    rw [hinv "F" 8 0 50 (by decide) (by decide) (by decide), hfloor]
    norm_num
  have branch : ∀ (x : ℚ) (s : String) (y : ℚ),
      letter_conversion x defaultThresholds defaultLetters = some s →
      (inverse_conversion s defaultThresholds defaultLetters).1 = some y →
      letter_conversion y defaultThresholds defaultLetters = some s →
      ∃ z : ℚ, roundTrip x = some z
        ∧ letter_conversion z defaultThresholds defaultLetters
            = letter_conversion x defaultThresholds defaultLetters := by
    intro x s y h1 h2 h3
    refine ⟨y, ?_, ?_⟩
    · simp only [roundTrip, h1, h2]
    · rw [h3, h1]
  have main : ∀ x : ℚ,
      ∃ z : ℚ, roundTrip x = some z
        ∧ letter_conversion z defaultThresholds defaultLetters
            = letter_conversion x defaultThresholds defaultLetters := by
    intro x
    rcases le_or_lt 93 x with h1 | h1
    · refine branch x "A" 96 ?_ hA ?_
      · rw [letter_conversion_default_eval, if_pos h1]
      · rw [letter_conversion_default_eval]
        norm_num
    rcases le_or_lt 90 x with h2 | h2
    · refine branch x "A-" 91 ?_ hAm ?_
      · rw [letter_conversion_default_eval, if_neg (not_le.mpr h1), if_pos h2]
      · rw [letter_conversion_default_eval]
        norm_num
    rcases le_or_lt 87 x with h3 | h3
    · refine branch x "B+" 88 ?_ hBp ?_
      · rw [letter_conversion_default_eval, if_neg (not_le.mpr h1),
          if_neg (not_le.mpr h2), if_pos h3]
      · rw [letter_conversion_default_eval]
        norm_num
    rcases le_or_lt 83 x with h4 | h4
    · refine branch x "B" 85 ?_ hB ?_
      · rw [letter_conversion_default_eval, if_neg (not_le.mpr h1),
          if_neg (not_le.mpr h2), if_neg (not_le.mpr h3), if_pos h4]
      · rw [letter_conversion_default_eval]
        norm_num
    rcases le_or_lt 80 x with h5 | h5
    · refine branch x "B-" 81 ?_ hBm ?_
      · rw [letter_conversion_default_eval, if_neg (not_le.mpr h1),
          if_neg (not_le.mpr h2), if_neg (not_le.mpr h3), if_neg (not_le.mpr h4),
          if_pos h5]
      · rw [letter_conversion_default_eval]
        norm_num
    rcases le_or_lt 75 x with h6 | h6
    · refine branch x "C+" 77 ?_ hCp ?_
      · rw [letter_conversion_default_eval, if_neg (not_le.mpr h1),
          if_neg (not_le.mpr h2), if_neg (not_le.mpr h3), if_neg (not_le.mpr h4),
          if_neg (not_le.mpr h5), if_pos h6]
      · rw [letter_conversion_default_eval]
        norm_num
    rcases le_or_lt 65 x with h7 | h7
    · refine branch x "C" 70 ?_ hC ?_
      · rw [letter_conversion_default_eval, if_neg (not_le.mpr h1),
          if_neg (not_le.mpr h2), if_neg (not_le.mpr h3), if_neg (not_le.mpr h4),
          if_neg (not_le.mpr h5), if_neg (not_le.mpr h6), if_pos h7]
      · rw [letter_conversion_default_eval]
        norm_num
    rcases le_or_lt 50 x with h8 | h8
    · refine branch x "D" 57 ?_ hD ?_
      · rw [letter_conversion_default_eval, if_neg (not_le.mpr h1),
          if_neg (not_le.mpr h2), if_neg (not_le.mpr h3), if_neg (not_le.mpr h4),
          if_neg (not_le.mpr h5), if_neg (not_le.mpr h6), if_neg (not_le.mpr h7),
          if_pos h8]
      · rw [letter_conversion_default_eval]
        norm_num
    · refine branch x "F" 25 ?_ hF ?_
      · rw [letter_conversion_default_eval, if_neg (not_le.mpr h1),
          if_neg (not_le.mpr h2), if_neg (not_le.mpr h3), if_neg (not_le.mpr h4),
          if_neg (not_le.mpr h5), if_neg (not_le.mpr h6), if_neg (not_le.mpr h7),
          if_neg (not_le.mpr h8)]
      · rw [letter_conversion_default_eval]
        norm_num
  refine ⟨fun x _ _ => main x, ?_⟩
  obtain ⟨z, hz, hlz⟩ := main 95
  have h95 : letter_conversion (95 : ℚ) defaultThresholds defaultLetters
      = some "A" := by
    rw [letter_conversion_default_eval]
    norm_num
  have hrt : roundTrip 95 = (inverse_conversion "A" defaultThresholds
      defaultLetters).1 := by
    simp only [roundTrip, h95]
  rw [hrt, hA]

/-- Witness for C6: the round-trip property applied at the concrete score
95 (letter A, numeric midpoint 96). -/
theorem c6_round_trip_witness :
    ∃ y : ℚ, roundTrip 95 = some y
      ∧ letter_conversion y defaultThresholds defaultLetters
          = letter_conversion 95 defaultThresholds defaultLetters :=
  c6_round_trip_bracket.1 95 (by norm_num) (by norm_num)

/-- C9: `compute_grades` never mutates the Course: for every Course and every
combination of options, after a call the roster, merged gradebook and grades
frames equal their values before the call, and repeating the call with equal
options returns an equal result. -/
theorem c9_compute_grades_pure (c : Course) (gs : Option (List GradingScheme))
    (T : Option (List ℚ)) (L : Option (List String))
    (inc incO : Option (List String)) :
    ((compute_grades c gs T L inc incO).2.roster = c.roster
      ∧ (compute_grades c gs T L inc incO).2.gradebook = c.gradebook
      ∧ (compute_grades c gs T L inc incO).2.grades = c.grades)
    ∧ compute_grades ((compute_grades c gs T L inc incO).2) gs T L inc incO
        = compute_grades c gs T L inc incO :=
  ⟨⟨rfl, rfl, rfl⟩, rfl⟩

/-- C10: every call to `inverse_conversion` appends the sentinels 0 and 100
to the thresholds list supplied by the caller, so the list is two elements
longer after the call, and a second call with the same list object operates
on the extended list (its own result state appends two further sentinels to
the already extended list). -/
theorem c10_inverse_conversion_extends_thresholds (x : String) (T : List ℚ)
    (L : List String) :
    (inverse_conversion x T L).2 = T ++ [0, 100]
    ∧ ((inverse_conversion x T L).2).length = T.length + 2
    ∧ (inverse_conversion x ((inverse_conversion x T L).2) L).2
        = (T ++ [0, 100]) ++ [0, 100] := by
  refine ⟨rfl, ?_, rfl⟩
  simp [inverse_conversion]

/-- C1 (failing evaluation): on a course with the single assignment HW,
`compute_grades` with `include = ['letter']` returns a frame whose columns
include the per-assignment average column `HW` and the `Final grade` column,
although only the letter section was requested: the averages and final
frames are populated (as prerequisites of the letter grade) into the very
dict of section frames that is concatenated into the result. -/
theorem c1_letter_only_output_columns :
    (compute_grades sampleCourse none none none (some ["letter"]) none).1.columns
      = ["Last Name", "First Name", "ID", "Email", "HW", "Final grade",
         "Letter grade"] := by
  rfl

/-- C8 (failing evaluation): `create_import` on a standard one-student grade
table raises AttributeError: the source line `output[info_col_names] =
df.info_col_names` accesses the attribute (column) literally named
`info_col_names`, which no grade table has, instead of the columns listed by
the `info_col_names` variable. -/
theorem c8_create_import_attribute_error :
    create_import sampleImportDF "Letter grade" true defaultThresholds
        defaultLetters []
      = Except.error (PdErr.attributeError "info_col_names") := by
  rfl

/-- C2 (counterexample): the claim states `drop(k)` fails with an error
whenever `k >= n`; but on `[10, 20, 30, 40]` with `k = 5 > 4 = n` the scheme
returns `0` without failing (`nlargest` of a negative count is empty and
`0 / (-1) = -0.0`); only `k = n` divides by zero. -/
theorem c2_drop_counterexample :
    dropFunc 5 [10, 20, 30, 40] = Except.ok 0
    ∧ ∀ e, dropFunc 5 [10, 20, 30, 40] ≠ Except.error e := by
  have h1 : dropFunc 5 [10, 20, 30, 40] = Except.ok 0 := by
    simp only [dropFunc, nlargest, List.length_cons, List.length_nil, List.sum_nil]
    norm_num
  refine ⟨h1, ?_⟩
  intro e h
  rw [h1] at h
  exact Except.noConfusion h

/-- C2 (amended): `GradingScheme.apply` of `drop k` delegates to the stored
closure; for `k < n` the closure returns the sum of the `n - k` largest
values divided by `n - k` (stated via a permutation split into a kept part
dominating a dropped part), on `[10, 20, 30, 40]` with `k = 1` it returns
30; it fails with a ZeroDivisionError exactly when `k = n`; and for `k > n`
it returns 0 without failing. -/
theorem c2_drop_scheme :
    (∀ (nv : List (String × ℚ)) (k : Nat),
      GradingScheme.apply (GradingScheme.drop k) nv = dropFunc k (nv.map Prod.snd))
    ∧ (∀ (grades : List ℚ) (k : Nat),
        (k < grades.length →
          ∃ kept dropped : List ℚ,
            grades.Perm (kept ++ dropped)
            ∧ kept.length = grades.length - k
            ∧ (∀ b ∈ dropped, ∀ a ∈ kept, b ≤ a)
            ∧ dropFunc k grades
                = Except.ok (kept.sum / ((grades.length - k : ℕ) : ℚ)))
        ∧ (k = grades.length →
            dropFunc k grades = Except.error "ZeroDivisionError")
        ∧ (grades.length < k → dropFunc k grades = Except.ok 0))
    ∧ dropFunc 1 [10, 20, 30, 40] = Except.ok 30 := by
  refine ⟨fun nv k => rfl, fun grades k => ⟨?_, ?_, ?_⟩, ?_⟩
  · intro hk
    have hnb : ¬ ((grades.length : ℤ) - (k : ℤ) = 0) := by omega
    have hple : ¬ ((grades.length : ℤ) - (k : ℤ) ≤ 0) := by omega
    have htn : ((grades.length : ℤ) - (k : ℤ)).toNat = grades.length - k := by
      omega
    set sorted := grades.insertionSort (fun a b => b ≤ a) with hsorted
    refine ⟨sorted.take (grades.length - k), sorted.drop (grades.length - k),
      ?_, ?_, ?_, ?_⟩
    · rw [List.take_append_drop]
      exact (List.perm_insertionSort _ _).symm
    · rw [List.length_take, List.length_insertionSort]
      omega
    · haveI h1 : IsTotal ℚ (fun a b : ℚ => b ≤ a) := ⟨fun a b => le_total b a⟩
      haveI h2 : IsTrans ℚ (fun a b : ℚ => b ≤ a) :=
        ⟨fun _ _ _ hab hbc => le_trans hbc hab⟩
      have hs : List.Pairwise (fun a b : ℚ => b ≤ a)
          (sorted.take (grades.length - k) ++ sorted.drop (grades.length - k)) := by
        rw [List.take_append_drop]
        exact List.sorted_insertionSort _ _
      have hcross := (List.pairwise_append.mp hs).2.2
      intro b hb a ha
      exact hcross a ha b hb
    · simp only [dropFunc, nlargest]
      rw [if_neg hnb, if_neg hple, htn]
      have hcast : (((grades.length : ℤ) - (k : ℤ) : ℤ) : ℚ)
          = ((grades.length - k : ℕ) : ℚ) := by
        have h3 : (grades.length : ℤ) - (k : ℤ) = ((grades.length - k : ℕ) : ℤ) := by
          omega
        rw [h3]
        push_cast
        rfl
      rw [hcast]
  · intro hk
    simp only [dropFunc]
    rw [if_pos (by omega : (grades.length : ℤ) - (k : ℤ) = 0)]
  · intro hk
    simp only [dropFunc, nlargest]
    rw [if_neg (by omega : ¬ ((grades.length : ℤ) - (k : ℤ) = 0)),
        if_pos (by omega : (grades.length : ℤ) - (k : ℤ) ≤ 0)]
    simp
  · have hsort : ([10, 20, 30, 40] : List ℚ).insertionSort (fun a b => b ≤ a)
        = [40, 30, 20, 10] := by decide
    have htake : List.take (Int.toNat 3) ([40, 30, 20, 10] : List ℚ)
        = [40, 30, 20] := by decide
    simp only [dropFunc, nlargest, List.length_cons, List.length_nil]
    norm_num [hsort, htake, List.sum_cons, List.sum_nil]

/-- Witness for C2 at concrete inputs: on four values, `k = 4` divides by
zero and `k = 1` drops the lowest value. -/
theorem c2_drop_scheme_witness :
    dropFunc 4 [10, 20, 30, 40] = Except.error "ZeroDivisionError"
    ∧ dropFunc 1 [10, 20, 30, 40] = Except.ok 30 :=
  ⟨(c2_drop_scheme.2.1 [10, 20, 30, 40] 4).2.1 rfl, c2_drop_scheme.2.2⟩

/-- C3: `test_score` applied to the list of a test's version scores returns
the absent marker when all versions are absent; returns the unique present
value when exactly one version is present; and when more than one version is
present returns the first present value in version order and emits a
diagnostic identifying the student and the test. -/
theorem c3_test_score_resolution (name : String) (results : List (Option ℚ))
    (sid : String) :
    ((∀ r ∈ results, r = none) → test_score name results sid = (none, none))
    ∧ (∀ v : ℚ, results.filterMap (fun r => r) = [v] →
        test_score name results sid = (some v, none))
    ∧ (∀ (v : ℚ) (rest : List ℚ),
        results.filterMap (fun r => r) = v :: rest → rest ≠ [] →
        test_score name results sid = (some v, some (name, sid))) := by
  refine ⟨?_, ?_, ?_⟩
  · intro h
    have hnil : results.filterMap (fun r => r) = [] := by
      rw [List.filterMap_eq_nil_iff]
      intro a ha
      exact h a ha
    simp [test_score, hnil]
  · intro v hv
    simp [test_score, hv]
  · intro v rest hv hrest
    have hlen : 1 < (results.filterMap (fun r => r)).length := by
      rw [hv]
      have := List.length_pos.mpr hrest
      simp only [List.length_cons]
      omega
    simp only [test_score, hv]
    rw [if_neg (List.cons_ne_nil v rest), if_pos (hv ▸ hlen)]
    simp

/-- Witness for C3 at concrete inputs: all versions absent, exactly one
present, and two present (first wins, diagnostic emitted). -/
theorem c3_test_score_witness :
    test_score "Quiz 1" [none, none] "s1" = (none, none)
    ∧ test_score "Quiz 1" [none, some 5] "s1" = (some 5, none)
    ∧ test_score "Quiz 1" [some 7, none, some 3] "s1"
        = (some 7, some ("Quiz 1", "s1")) :=
  ⟨(c3_test_score_resolution "Quiz 1" [none, none] "s1").1 (by decide),
   (c3_test_score_resolution "Quiz 1" [none, some 5] "s1").2.1 5 (by decide),
   (c3_test_score_resolution "Quiz 1" [some 7, none, some 3] "s1").2.2 7 [3]
     (by decide) (by decide)⟩

end Easygrader
